import Mathlib

/-!
# ClawRouter proxy — verification development

Shallow embedding of the routing proxy's core request-handling functions
(`src/proxy.ts`, `src/api-keys.ts`) and proofs about them.

Conventions:
* TypeScript strings become `String` / `List Char`; machine numbers become `Nat`.
* JavaScript truthiness of a string is modelled as "non-empty".
* `undefined`-able fields become `Option`.
* The JS regexes used by the proxy are embedded as hand-written matchers on
  `List Char` that implement the exact matching semantics of the concrete
  patterns in the source (leftmost match, one non-rescanning global pass per
  pattern, greedy `[^>]*`, lazy `[\s\S]*?`, case-insensitive `i` flag).
-/

namespace ClawRouter

/-! ## Retryable-error classification (`proxy.ts` lines 118-131)

`PROVIDER_ERROR_PATTERNS` is a list of case-insensitive JS regexes, each a
sequence of literal words separated by `.*` gaps.  `.` in a JS regex does not
match line terminators, so a `.*` gap may contain any characters except
`\n`, `\r`, U+2028, U+2029.  A pattern is represented by its list of literal
segments (all lowercase); `patTest` implements `RegExp.prototype.test`. -/

/-- A character the JS regex `.` matches (anything but a line terminator). -/
def dotChar (c : Char) : Bool :=
  !(c == '\n' || c == '\r' || c.toNat == 0x2028 || c.toNat == 0x2029)

/-- Match `seg` after a `.*` gap: scan forward over `dotChar`s for the first
occurrence of `seg`; return the remainder after it. -/
def gapFind (seg : List Char) : List Char → Option (List Char)
  | [] => if seg.isEmpty then some [] else none
  | c :: r =>
    if seg.isPrefixOf (c :: r) then some ((c :: r).drop seg.length)
    else if dotChar c then gapFind seg r
    else none

/-- Match the remaining segments, each preceded by a `.*` gap. -/
def chainMatch : List (List Char) → List Char → Bool
  | [], _ => true
  | seg :: rest, s =>
    match gapFind seg s with
    | some r => chainMatch rest r
    | none => false

/-- Search every start position for the first segment (the regex is
unanchored, so the text before the first segment is unconstrained), then
require the remaining segments after `.*` gaps. -/
def searchMatch (seg : List Char) (rest : List (List Char)) : List Char → Bool
  | [] => seg.isEmpty && chainMatch rest []
  | c :: r =>
    (seg.isPrefixOf (c :: r) && chainMatch rest ((c :: r).drop seg.length))
      || searchMatch seg rest r

/-- Implements `RegExp.test` for a pattern `seg₁.*seg₂.*…` with the `i` flag:
both sides are compared lowercased. -/
def patTest (segs : List String) (body : String) : Bool :=
  match segs with
  | [] => true
  | seg :: rest =>
    searchMatch (seg.data.map Char.toLower) (rest.map (fun s => s.data.map Char.toLower))
      (body.data.map Char.toLower)

/-- Embedding of `PROVIDER_ERROR_PATTERNS` (`proxy.ts` lines 118-123), each regex given by
its literal segments (`/insufficient.*balance/i` ↦ `["insufficient","balance"]`). -/
def PROVIDER_ERROR_PATTERNS : List (List String) :=
  [["billing"], ["insufficient", "balance"], ["credits"], ["quota", "exceeded"],
   ["rate", "limit"], ["model", "unavailable"], ["service", "unavailable"],
   ["capacity"], ["overloaded"], ["temporarily", "unavailable"],
   ["api", "key", "invalid"], ["authentication", "failed"]]

/-- Embedding of `FALLBACK_STATUS_CODES` (`proxy.ts` line 125). -/
def FALLBACK_STATUS_CODES : List Nat := [400, 401, 402, 403, 429, 500, 502, 503, 504]

/-- Embedding of `isProviderError` (`proxy.ts` lines 127-131). -/
def isProviderError (status : Nat) (body : String) : Bool :=
  if !(FALLBACK_STATUS_CODES.contains status) then false
  else if 500 ≤ status then true
  else PROVIDER_ERROR_PATTERNS.any (fun p => patTest p body)

/-- The spec's wording of "retryable" (§4.4 FALLBACK_NEXT): status in the
fallback set, and in addition status ≥ 500 or the body matches one of the
documented error-class patterns. -/
def SpecRetryable (status : Nat) (body : String) : Prop :=
  status ∈ FALLBACK_STATUS_CODES ∧
    (500 ≤ status ∨ ∃ p ∈ PROVIDER_ERROR_PATTERNS, patTest p body = true)

end ClawRouter

namespace ClawRouter

/-! ## The fallback attempt loop (`proxy.ts` lines 884-905)

The loop tries the models of `modelsToTry` in order.  An attempt either
succeeds (`break` after recording the response) or fails with a status, a
body and the `isProviderError` classification; on a failed attempt the loop
continues with the next model iff the failure is a provider error and the
attempt was not the last one.  `runAttempts` returns the models actually
attempted, in order. -/

/-- Outcome of `tryModelRequest` for one model, as consumed by the loop. -/
inductive AttemptResult
  | ok
  | err (status : Nat) (body : String) (providerError : Bool)

/-- The models the loop of `proxy.ts` lines 884-905 actually attempts,
given the per-model outcome `oracle`. -/
def runAttempts (oracle : String → AttemptResult) : List String → List String
  | [] => []
  | m :: rest =>
    match oracle m with
    | .ok => [m]
    | .err _ _ pe => if pe && !rest.isEmpty then m :: runAttempts oracle rest else [m]

theorem runAttempts_ne_nil (oracle : String → AttemptResult) (models : List String)
    (h : models ≠ []) : ∃ y tl, runAttempts oracle models = y :: tl := by
  match models with
  | [] => exact absurd rfl h
  | m :: rest =>
    cases hm : oracle m with
    | ok => exact ⟨m, [], by simp [runAttempts, hm]⟩
    | err s b pe =>
      by_cases hc : (pe && !rest.isEmpty) = true
      · exact ⟨m, runAttempts oracle rest, by simp [runAttempts, hm, hc]⟩
      · exact ⟨m, [], by simp [runAttempts, hm, hc]⟩

end ClawRouter

namespace ClawRouter

/-- C2: For every upstream HTTP status `s` and response body `b`, the response
is classified retryable iff `s` is in `{400, 401, 402, 403, 429, 500, 502,
503, 504}` and in addition `s ≥ 500` or `b` matches one of the documented
error-class patterns; and in the attempt loop a failed attempt classified by
`isProviderError` triggers a fallback attempt on a further model iff that
classification is true and a further model exists. -/
theorem retryable_iff_status_and_pattern (s : Nat) (b : String) :
    (isProviderError s b = true ↔ SpecRetryable s b) ∧
    (∀ oracle m rest, oracle m = AttemptResult.err s b (isProviderError s b) → rest ≠ [] →
      ((runAttempts oracle (m :: rest) = m :: runAttempts oracle rest ↔
          isProviderError s b = true) ∧
        (isProviderError s b = false → runAttempts oracle (m :: rest) = [m]))) := by
  constructor
  · unfold isProviderError SpecRetryable
    by_cases hc : FALLBACK_STATUS_CODES.contains s
    · by_cases h5 : 500 ≤ s
      · simp [hc, h5, List.elem_iff.mp hc]
      · simp [hc, h5, List.any_eq_true, List.elem_iff.mp hc]
    · have : s ∉ FALLBACK_STATUS_CODES := fun hmem => hc (List.elem_iff.mpr hmem)
      simp [hc, this]
  · intro oracle m rest h hr
    have hne : rest.isEmpty = false := by
      cases rest with
      | nil => exact absurd rfl hr
      | cons x xs => simp [List.isEmpty]
    constructor
    · constructor
      · intro heq
        by_contra hpe
        have hpe' : isProviderError s b = false := Bool.eq_false_iff.mpr hpe
        rw [hpe'] at h
        have h1 : runAttempts oracle (m :: rest) = [m] := by
          simp [runAttempts, h]
        rw [h1] at heq
        obtain ⟨y, tl, hy⟩ := runAttempts_ne_nil oracle rest hr
        rw [hy] at heq
        simp at heq
      · intro hpe
        rw [hpe] at h
        simp [runAttempts, h, hne]
    · intro hpe
      rw [hpe] at h
      simp [runAttempts, h]

end ClawRouter

namespace ClawRouter

/-- Witness for C2: a 429 response whose body mentions a rate limit is
retryable, so with a further model in the chain the loop continues past it. -/
theorem retryable_iff_status_and_pattern_witness :
    runAttempts
        (fun _ => AttemptResult.err 429 "Rate limit exceeded"
          (isProviderError 429 "Rate limit exceeded")) ["model-a", "model-b"] =
      "model-a" ::
        runAttempts
          (fun _ => AttemptResult.err 429 "Rate limit exceeded"
            (isProviderError 429 "Rate limit exceeded")) ["model-b"] :=
  (((retryable_iff_status_and_pattern 429 "Rate limit exceeded").2
      (fun _ => AttemptResult.err 429 "Rate limit exceeded"
        (isProviderError 429 "Rate limit exceeded"))
      "model-a" ["model-b"] rfl (by decide)).1).mpr (by decide)

end ClawRouter

namespace ClawRouter

/-! ## API-key configuration and provider access (`api-keys.ts`)

`ApiKeysConfig.providers` is modelled as an association list provider-id →
`{apiKey, baseUrl?}`.  JS string truthiness (`if (key)`) is modelled as
"present and non-empty"; `x ?? y` keeps a present-but-empty string. -/

structure ProviderConfig where
  apiKey : String
  baseUrl : Option String
deriving DecidableEq

abbrev ApiKeysConfig := List (String × ProviderConfig)

def getProviderEntry (cfg : ApiKeysConfig) (p : String) : Option ProviderConfig :=
  (cfg.find? (fun e => e.1 == p)).map (·.2)

/-- Embedding of `PROVIDER_ENDPOINTS` (`api-keys.ts` lines 58-67). -/
def PROVIDER_ENDPOINTS : List (String × String) :=
  [("openai", "https://api.openai.com/v1"),
   ("anthropic", "https://api.anthropic.com/v1"),
   ("google", "https://generativelanguage.googleapis.com/v1beta"),
   ("xai", "https://api.x.ai/v1"),
   ("deepseek", "https://api.deepseek.com/v1"),
   ("moonshot", "https://api.moonshot.cn/v1"),
   ("nvidia", "https://integrate.api.nvidia.com/v1"),
   ("openrouter", "https://openrouter.ai/api/v1")]

def endpointFor (p : String) : Option String :=
  (PROVIDER_ENDPOINTS.find? (fun e => e.1 == p)).map (·.2)

/-- Embedding of `OPENAI_COMPATIBLE_PROVIDERS` (`api-keys.ts` lines 73-75). -/
def OPENAI_COMPATIBLE_PROVIDERS : List String :=
  ["openai", "xai", "deepseek", "moonshot", "nvidia"]

/-- JS truthiness of a string. -/
def truthy (s : String) : Bool := !(s == "")

/-- JS truthiness of a possibly-`undefined` string. -/
def truthyOpt : Option String → Bool
  | some v => truthy v
  | none => false

/-- Embedding of `getApiKey` (`api-keys.ts` lines 154-156). -/
def getApiKey (cfg : ApiKeysConfig) (p : String) : Option String :=
  (getProviderEntry cfg p).map (·.apiKey)

/-- Embedding of `getProviderBaseUrl` (`api-keys.ts` lines 161-163):
`config.providers[p]?.baseUrl ?? PROVIDER_ENDPOINTS[p]`. -/
def getProviderBaseUrl (cfg : ApiKeysConfig) (p : String) : Option String :=
  match (getProviderEntry cfg p).bind (·.baseUrl) with
  | some u => some u
  | none => endpointFor p

/-- Embedding of `getProviderFromModel` (`api-keys.ts` lines 168-171): text before the
first `/` when that slash exists at an index `> 0`, else the whole id. -/
def getProviderFromModel (modelId : String) : String :=
  match modelId.data.findIdx? (fun c => c == '/') with
  | some i => if 0 < i then ⟨modelId.data.take i⟩ else modelId
  | none => modelId

/-- Embedding of `hasOpenRouter` (`api-keys.ts` lines 176-178). -/
def hasOpenRouter (cfg : ApiKeysConfig) : Bool :=
  truthyOpt ((getProviderEntry cfg "openrouter").map (·.apiKey))

structure ProviderAccess where
  apiKey : String
  baseUrl : String
  provider : String
  viaOpenRouter : Bool
deriving DecidableEq

/-- Computes `config.providers.openrouter?.baseUrl ?? PROVIDER_ENDPOINTS.openrouter`. -/
def openRouterUrl (cfg : ApiKeysConfig) : String :=
  match (getProviderEntry cfg "openrouter").bind (·.baseUrl) with
  | some u => u
  | none => "https://openrouter.ai/api/v1"

/-- Embedding of `resolveProviderAccess` (`api-keys.ts` lines 185-216). -/
def resolveProviderAccess (cfg : ApiKeysConfig) (modelId : String) :
    Option ProviderAccess :=
  let provider := getProviderFromModel modelId
  let needsConversion := provider == "anthropic" || provider == "google"
  let orKey := (getProviderEntry cfg "openrouter").map (·.apiKey)
  if needsConversion && truthyOpt orKey then
    some ⟨orKey.getD "", openRouterUrl cfg, "openrouter", true⟩
  else if truthyOpt (getApiKey cfg provider) && truthyOpt (getProviderBaseUrl cfg provider)
      && OPENAI_COMPATIBLE_PROVIDERS.contains provider then
    some ⟨(getApiKey cfg provider).getD "", (getProviderBaseUrl cfg provider).getD "",
      provider, false⟩
  else if truthyOpt orKey then
    some ⟨orKey.getD "", openRouterUrl cfg, "openrouter", true⟩
  else none

/-- Embedding of `isModelAccessible` (`api-keys.ts` lines 221-223). -/
def isModelAccessible (cfg : ApiKeysConfig) (modelId : String) : Bool :=
  (resolveProviderAccess cfg modelId).isSome

end ClawRouter

namespace ClawRouter

/-- C3's four-step algorithm exactly as the spec words it (§4.8): (1) if the
provider is not natively OpenAI-compatible and a gateway key exists, gateway
access; (2) else if a direct key for the provider exists and the provider
speaks dialect A natively, direct access with the provider's base URL;
(3) else if a gateway key exists, gateway access; (4) else unreachable.
Written from the spec's words, for comparison with `resolveProviderAccess`. -/
def claimResolveProviderAccess (cfg : ApiKeysConfig) (modelId : String) :
    Option ProviderAccess :=
  let provider := getProviderFromModel modelId
  let orKey := (getProviderEntry cfg "openrouter").map (·.apiKey)
  if !(OPENAI_COMPATIBLE_PROVIDERS.contains provider) && truthyOpt orKey then
    some ⟨orKey.getD "", openRouterUrl cfg, "openrouter", true⟩
  else if truthyOpt (getApiKey cfg provider)
      && OPENAI_COMPATIBLE_PROVIDERS.contains provider then
    some ⟨(getApiKey cfg provider).getD "", (getProviderBaseUrl cfg provider).getD "",
      provider, false⟩
  else if truthyOpt orKey then
    some ⟨orKey.getD "", openRouterUrl cfg, "openrouter", true⟩
  else none

/-- The four-step algorithm amended as the code forces: step 2 additionally
requires the resolved base URL (configured override, else registry default)
to be present and non-empty. -/
def amendedResolveProviderAccess (cfg : ApiKeysConfig) (modelId : String) :
    Option ProviderAccess :=
  let provider := getProviderFromModel modelId
  let orKey := (getProviderEntry cfg "openrouter").map (·.apiKey)
  if !(OPENAI_COMPATIBLE_PROVIDERS.contains provider) && truthyOpt orKey then
    some ⟨orKey.getD "", openRouterUrl cfg, "openrouter", true⟩
  else if truthyOpt (getApiKey cfg provider) && truthyOpt (getProviderBaseUrl cfg provider)
      && OPENAI_COMPATIBLE_PROVIDERS.contains provider then
    some ⟨(getApiKey cfg provider).getD "", (getProviderBaseUrl cfg provider).getD "",
      provider, false⟩
  else if truthyOpt orKey then
    some ⟨orKey.getD "", openRouterUrl cfg, "openrouter", true⟩
  else none

/-- C3 counterexample: with a direct OpenAI key whose configured base URL is
the empty string (and no gateway key), the code returns unreachable while the
claim's four-step algorithm returns direct access. -/
theorem resolveProviderAccess_counterexample :
    resolveProviderAccess [("openai", ⟨"sk-test", some ""⟩)] "openai/gpt-4o" = none ∧
    claimResolveProviderAccess [("openai", ⟨"sk-test", some ""⟩)] "openai/gpt-4o" =
      some ⟨"sk-test", "", "openai", false⟩ := by
  constructor
  · rfl
  · rfl

end ClawRouter

namespace ClawRouter

/-- C3 amended: the key resolver follows the four-step algorithm with the
single amendment that step 2 (direct access) additionally requires a present,
non-empty resolved base URL. -/
theorem resolveProviderAccess_follows_amended_steps (cfg : ApiKeysConfig)
    (modelId : String) :
    resolveProviderAccess cfg modelId = amendedResolveProviderAccess cfg modelId := by
  unfold resolveProviderAccess amendedResolveProviderAccess
  by_cases hcompat :
      OPENAI_COMPATIBLE_PROVIDERS.contains (getProviderFromModel modelId) = true
  · have hng : (getProviderFromModel modelId == "anthropic"
        || getProviderFromModel modelId == "google") = false := by
      have hmem := List.elem_iff.mp hcompat
      simp only [OPENAI_COMPATIBLE_PROVIDERS, List.mem_cons, List.not_mem_nil,
        or_false] at hmem
      rcases hmem with h | h | h | h | h <;> rw [h] <;> rfl
    simp [hng, hcompat, List.elem_iff.mp hcompat]
  · have hnotmem : getProviderFromModel modelId ∉ OPENAI_COMPATIBLE_PROVIDERS :=
      fun h => hcompat (List.elem_iff.mpr h)
    by_cases hor :
        truthyOpt ((getProviderEntry cfg "openrouter").map (·.apiKey)) = true
    · by_cases hng : (getProviderFromModel modelId == "anthropic"
          || getProviderFromModel modelId == "google") = true
      · simp [hng, hor, hnotmem]
      · simp [Bool.eq_false_iff.mpr hng, hor, hnotmem]
    · simp [Bool.eq_false_iff.mpr hor, hnotmem]

end ClawRouter

namespace ClawRouter

/-- C9: for every key configuration without a gateway (OpenRouter) key, the
resolver returns `none` — and `isModelAccessible` returns `false` — for every
model whose provider prefix is `anthropic` or `google`, even when a direct
anthropic or google API key is configured; and whenever such a model does
resolve, the access goes via the gateway (never direct dialect-B/C dispatch). -/
theorem anthropic_google_need_gateway (cfg : ApiKeysConfig) (modelId : String)
    (hp : getProviderFromModel modelId = "anthropic"
      ∨ getProviderFromModel modelId = "google") :
    (hasOpenRouter cfg = false →
      resolveProviderAccess cfg modelId = none ∧ isModelAccessible cfg modelId = false) ∧
    (∀ acc, resolveProviderAccess cfg modelId = some acc → acc.viaOpenRouter = true) := by
  have hnotmem : getProviderFromModel modelId ∉ OPENAI_COMPATIBLE_PROVIDERS := by
    rcases hp with h | h <;> rw [h] <;> decide
  constructor
  · intro hor
    unfold hasOpenRouter at hor
    have h1 : resolveProviderAccess cfg modelId = none := by
      unfold resolveProviderAccess
      simp [hor, hnotmem]
    exact ⟨h1, by unfold isModelAccessible; rw [h1]; rfl⟩
  · intro acc hacc
    by_cases hor : truthyOpt ((getProviderEntry cfg "openrouter").map (·.apiKey)) = true
    · have hng : (getProviderFromModel modelId == "anthropic"
          || getProviderFromModel modelId == "google") = true := by
        rcases hp with h | h <;> rw [h] <;> rfl
      unfold resolveProviderAccess at hacc
      simp only [hng, hor, Bool.and_self, if_pos, Bool.true_and, if_true] at hacc
      cases hacc
      rfl
    · have hor' := Bool.eq_false_iff.mpr hor
      unfold resolveProviderAccess at hacc
      simp [hor', hnotmem] at hacc

end ClawRouter

namespace ClawRouter

/-- Witness for C9: a configuration holding only a direct anthropic key cannot
reach `anthropic/claude-sonnet-4`. -/
theorem anthropic_google_need_gateway_witness :
    resolveProviderAccess [("anthropic", ⟨"sk-ant-test", none⟩)]
        "anthropic/claude-sonnet-4" = none ∧
    isModelAccessible [("anthropic", ⟨"sk-ant-test", none⟩)]
        "anthropic/claude-sonnet-4" = false :=
  (anthropic_google_need_gateway [("anthropic", ⟨"sk-ant-test", none⟩)]
      "anthropic/claude-sonnet-4" (Or.inl (by rfl))).1 (by rfl)

end ClawRouter

namespace ClawRouter

/-! ## Rate-limit map and fallback-chain ordering (`proxy.ts` lines 53-81)

`rateLimitedModels` is a map model-id → timestamp of the last 429.  The pure
model passes the map and the current time explicitly; the map's lazy eviction
of expired marks is a cache-size optimisation with no observable effect on
`isRateLimited`'s result, so the pure model omits the delete. -/

def RATE_LIMIT_COOLDOWN_MS : Nat := 60000

abbrev RateLimitMap := List (String × Nat)

def rateLimitLookup (st : RateLimitMap) (modelId : String) : Option Nat :=
  (st.find? (fun e => e.1 == modelId)).map (·.2)

/-- Embedding of `isRateLimited` (`proxy.ts` lines 59-67).  `if (!hitTime)` is JS number
truthiness, so a mark of `0` also reads as "not limited". -/
def isRateLimited (now : Nat) (st : RateLimitMap) (modelId : String) : Bool :=
  match rateLimitLookup st modelId with
  | none => false
  | some hitTime =>
    if hitTime == 0 then false
    else if RATE_LIMIT_COOLDOWN_MS ≤ now - hitTime then false
    else true

/-- Embedding of `prioritizeNonRateLimited` (`proxy.ts` lines 74-81): one pass pushing each
model onto the `available` or `limited` list, then `available ++ limited`. -/
def prioritizeNonRateLimited (now : Nat) (st : RateLimitMap)
    (models : List String) : List String :=
  let p := models.foldl
    (fun (acc : List String × List String) m =>
      if isRateLimited now st m then (acc.1, acc.2 ++ [m]) else (acc.1 ++ [m], acc.2))
    ([], [])
  p.1 ++ p.2

theorem prioritize_foldl_spec (now : Nat) (st : RateLimitMap) (models : List String)
    (acc1 acc2 : List String) :
    models.foldl
      (fun (acc : List String × List String) m =>
        if isRateLimited now st m then (acc.1, acc.2 ++ [m]) else (acc.1 ++ [m], acc.2))
      (acc1, acc2) =
    (acc1 ++ models.filter (fun m => !(isRateLimited now st m)),
     acc2 ++ models.filter (fun m => isRateLimited now st m)) := by
  induction models generalizing acc1 acc2 with
  | nil => simp
  | cons m rest ih =>
    by_cases hm : isRateLimited now st m = true
    · simp [List.foldl_cons, hm, ih]
    · simp [List.foldl_cons, Bool.eq_false_iff.mpr hm, ih]

end ClawRouter

namespace ClawRouter

/-- C5 counterexample: with every candidate rate-limited and `m2` carrying the
oldest (least-recent) mark, the reordered chain still tries `m1` first — chain
order, not mark age, decides within the limited partition. -/
theorem prioritize_counterexample :
    isRateLimited 2000 [("m1", 1000), ("m2", 500)] "m1" = true ∧
    isRateLimited 2000 [("m1", 1000), ("m2", 500)] "m2" = true ∧
    rateLimitLookup [("m1", 1000), ("m2", 500)] "m1" = some 1000 ∧
    rateLimitLookup [("m1", 1000), ("m2", 500)] "m2" = some 500 ∧
    prioritizeNonRateLimited 2000 [("m1", 1000), ("m2", 500)] ["m1", "m2"] =
      ["m1", "m2"] := by
  exact ⟨rfl, rfl, rfl, rfl, rfl⟩

/-- C5 amended: the reordering is a stable partition — models not currently
rate-limited first, then the rate-limited ones, each part in original chain
order; rate-limit mark timestamps are never compared. -/
theorem prioritize_is_stable_partition (now : Nat) (st : RateLimitMap)
    (models : List String) :
    prioritizeNonRateLimited now st models =
      models.filter (fun m => !(isRateLimited now st m))
        ++ models.filter (fun m => isRateLimited now st m) := by
  unfold prioritizeNonRateLimited
  rw [prioritize_foldl_spec]
  simp

end ClawRouter

namespace ClawRouter

/-! ## Chain construction (`proxy.ts` lines 863-878) -/

structure TierConfig where
  primary : String
  fallback : List String

/-- Modelled from the spec: `getFallbackChainFiltered` lives in
`src/router/index.ts`, which is not among the sources; §4.4 specifies the
fallback chain walked restricted to models "whose context window ≥
estimatedInputTokens + requested max_tokens". -/
def getFallbackChainFiltered (tc : TierConfig) (estimatedTotalTokens : Nat)
    (contextWindow : String → Nat) : List String :=
  (tc.primary :: tc.fallback).filter (fun m => estimatedTotalTokens ≤ contextWindow m)

def MAX_FALLBACK_ATTEMPTS : Nat := 3

/-- Everything the chain construction of `proxy.ts` lines 863-878 reads when a
routing decision is present (the tier table entry already chosen between
`tiers` and `agenticTiers`, the token estimate, and ambient stores). -/
structure FallbackCtx where
  tierConfig : TierConfig
  estimatedTotalTokens : Nat
  contextWindow : String → Nat
  cfg : ApiKeysConfig
  now : Nat
  rateSt : RateLimitMap

/-- Embedding of `modelsToTry` (`proxy.ts` lines 864-878): with a routing decision, the
context-filtered chain, capped at `MAX_FALLBACK_ATTEMPTS`, filtered to
accessible models, then stable-partitioned by rate-limit state; without one,
just the explicitly named model (`modelId ? [modelId] : []`). -/
def buildModelsToTry (decision : Option FallbackCtx) (modelId : String) :
    List String :=
  match decision with
  | some d =>
    prioritizeNonRateLimited d.now d.rateSt
      (((getFallbackChainFiltered d.tierConfig d.estimatedTotalTokens
            d.contextWindow).take MAX_FALLBACK_ATTEMPTS).filter
        (fun m => isModelAccessible d.cfg m))
  | none => if truthy modelId then [modelId] else []

/-- C10: a chat-completions request that names an explicit model (no routing
decision) is attempted on exactly that single model, whatever the outcome of
the attempt — the loop never proceeds to another model; the fallback chain,
context-window filter and rate-limit reordering enter only through the
routing-decision branch of `buildModelsToTry`. -/
theorem explicit_model_no_fallback (modelId : String)
    (oracle : String → AttemptResult) (h : modelId ≠ "") :
    buildModelsToTry none modelId = [modelId] ∧
    runAttempts oracle (buildModelsToTry none modelId) = [modelId] := by
  have ht : truthy modelId = true := by simp [truthy, h]
  have hb : buildModelsToTry none modelId = [modelId] := by
    simp [buildModelsToTry, ht]
  refine ⟨hb, ?_⟩
  rw [hb]
  cases hm : oracle modelId with
  | ok => simp [runAttempts, hm]
  | err s b pe => simp [runAttempts, hm]

/-- Witness for C10: an explicitly named model is the only attempt even when
the attempt fails with a retryable provider error. -/
theorem explicit_model_no_fallback_witness :
    buildModelsToTry none "openai/gpt-4o" = ["openai/gpt-4o"] ∧
    runAttempts (fun _ => AttemptResult.err 429 "rate limit" true)
        (buildModelsToTry none "openai/gpt-4o") = ["openai/gpt-4o"] :=
  explicit_model_no_fallback "openai/gpt-4o"
    (fun _ => AttemptResult.err 429 "rate limit" true) (by decide)

end ClawRouter

namespace ClawRouter

/-! ## Message normalization and dialect translation (`proxy.ts` lines 133-299)

Messages are modelled by their `role` and `content`; the claims settled here
concern roles, the extracted `system` string and `max_tokens`, none of which
the tool-call-id sanitizer (`sanitizeToolIds`, which rewrites only
`tool_calls[].id` / `tool_call_id` / content-block ids and never a role or a
content string) can affect, so that pass is omitted from the message model. -/

structure ChatMessage where
  role : String
  content : String
deriving DecidableEq

/-- Embedding of `VALID_ROLES` (`proxy.ts` line 133). -/
def VALID_ROLES : List String := ["system", "user", "assistant", "tool", "function"]

/-- Embedding of `ROLE_MAPPINGS` (`proxy.ts` line 134). -/
def ROLE_MAPPINGS : List (String × String) :=
  [("developer", "system"), ("model", "assistant")]

/-- Embedding of `normalizeMessageRoles` (`proxy.ts` lines 202-213): known roles pass,
mapped roles are remapped, anything else collapses to `user`. -/
def normalizeMessageRoles (messages : List ChatMessage) : List ChatMessage :=
  messages.map (fun m =>
    if VALID_ROLES.contains m.role then m
    else
      match (ROLE_MAPPINGS.find? (fun e => e.1 == m.role)).map (·.2) with
      | some r => { m with role := r }
      | none => { m with role := "user" })

/-- The synthetic message `normalizeMessagesForGoogle` splices in. -/
def continuingMsg : ChatMessage := ⟨"user", "(continuing conversation)"⟩

/-- The index scan of `proxy.ts` lines 217-220: the first index whose
message role is not `system`, or `none` (the code's `-1`). -/
def firstNonSystemIdx : List ChatMessage → Option Nat
  | [] => none
  | m :: rest =>
    if !(m.role == "system") then some 0 else (firstNonSystemIdx rest).map (· + 1)

/-- Embedding of `normalizeMessagesForGoogle` (`proxy.ts` lines 215-230): find the first
non-`system` message; if its role is `user` leave the list alone; if it is
`assistant` or `model` splice a synthetic user message in front of it; any
other role also leaves the list alone. -/
def normalizeMessagesForGoogle (messages : List ChatMessage) : List ChatMessage :=
  match firstNonSystemIdx messages with
  | none => messages
  | some i =>
    let firstRole := ((messages.get? i).map (·.role)).getD ""
    if firstRole == "user" then messages
    else if firstRole == "assistant" || firstRole == "model" then
      List.insertIdx i continuingMsg messages
    else messages

/-- Structural restatement of `normalizeMessagesForGoogle`: walk past the
`system` prefix; at the first non-system message insert the synthetic user
message iff that message's role is `assistant` or `model`. -/
def googleNormSpec : List ChatMessage → List ChatMessage
  | [] => []
  | m :: rest =>
    if m.role == "system" then m :: googleNormSpec rest
    else if m.role == "user" then m :: rest
    else if m.role == "assistant" || m.role == "model" then continuingMsg :: m :: rest
    else m :: rest

/-- The role of the first non-`system` message, if any. -/
def firstNonSystemRole (messages : List ChatMessage) : Option String :=
  (messages.find? (fun m => !(m.role == "system"))).map (·.role)

end ClawRouter

namespace ClawRouter

theorem firstNonSystemIdx_cons (m : ChatMessage) (rest : List ChatMessage) :
    firstNonSystemIdx (m :: rest) =
      if !(m.role == "system") then some 0 else (firstNonSystemIdx rest).map (· + 1) :=
  rfl

theorem firstNonSystemIdx_cons_system (m : ChatMessage) (rest : List ChatMessage)
    (hm : (m.role == "system") = true) :
    firstNonSystemIdx (m :: rest) = (firstNonSystemIdx rest).map (· + 1) := by
  rw [firstNonSystemIdx_cons, hm]
  simp

theorem googleNormSpec_all_system (rest : List ChatMessage)
    (h : firstNonSystemIdx rest = none) : googleNormSpec rest = rest := by
  induction rest with
  | nil => rfl
  | cons m tl ih =>
    by_cases hm : (m.role == "system") = true
    · rw [firstNonSystemIdx_cons_system m tl hm] at h
      simp only [Option.map_eq_none'] at h
      unfold googleNormSpec
      rw [hm, if_pos rfl, ih h]
    · unfold firstNonSystemIdx at h
      rw [Bool.eq_false_iff.mpr hm] at h
      simp at h

theorem googleNorm_cons_system (m : ChatMessage) (rest : List ChatMessage)
    (hm : (m.role == "system") = true) :
    normalizeMessagesForGoogle (m :: rest) = m :: normalizeMessagesForGoogle rest := by
  unfold normalizeMessagesForGoogle
  rw [firstNonSystemIdx_cons_system m rest hm]
  cases firstNonSystemIdx rest with
  | none => rfl
  | some j =>
    simp only [Option.map_some', List.get?_cons_succ, List.insertIdx_succ_cons]
    split <;> [rfl; skip]
    split <;> rfl

end ClawRouter

namespace ClawRouter

/-- C7 amended: after normalization for dialect C, the synthetic
`user: "(continuing conversation)"` message is injected only when the first
non-system role is `assistant` or `model`; a first non-system role of `user`
leaves the list unchanged, and so does any other first role (such as `tool`
or `function`, which survive role normalization), in which case the first
non-system message is not a `user` message. -/
theorem normalizeMessagesForGoogle_eq_spec (messages : List ChatMessage) :
    normalizeMessagesForGoogle messages = googleNormSpec messages := by
  induction messages with
  | nil => rfl
  | cons m rest ih =>
    by_cases hm : (m.role == "system") = true
    · rw [googleNorm_cons_system m rest hm, ih]
      conv_rhs => rw [googleNormSpec]
      rw [hm, if_pos rfl]
    · have hm' := Bool.eq_false_iff.mpr hm
      unfold normalizeMessagesForGoogle googleNormSpec
      rw [firstNonSystemIdx_cons, hm']
      simp

/-- C7 counterexample: a conversation whose first (and only) message has role
`tool` is dispatched to a dialect-C model unchanged — no synthetic user
message is injected and the first non-system role stays `tool`, not `user`.
(`normalizeMessageRoles` keeps `tool`: it is in `VALID_ROLES`.) -/
theorem google_first_message_counterexample :
    normalizeMessagesForGoogle (normalizeMessageRoles [⟨"tool", "tool result"⟩]) =
      [⟨"tool", "tool result"⟩] ∧
    firstNonSystemRole
        (normalizeMessagesForGoogle (normalizeMessageRoles [⟨"tool", "tool result"⟩])) =
      some "tool" ∧
    some "tool" ≠ some "user" := by
  refine ⟨rfl, rfl, ?_⟩
  decide

end ClawRouter

namespace ClawRouter

/-! ## OpenAI → Anthropic request translation (`proxy.ts` lines 268-299) -/

/-- The fields of an OpenAI-dialect chat body that
`convertToAnthropicFormat` reads. -/
structure ChatBody where
  model : String
  messages : List ChatMessage
  max_tokens : Option Nat
  stream : Bool
  temperature : Option Int
  top_p : Option Int
  tools : Option (List String)
deriving DecidableEq

/-- The Anthropic Messages-API body the conversion produces. -/
structure AnthropicBody where
  model : String
  messages : List ChatMessage
  max_tokens : Nat
  system : Option String
  stream : Bool
  temperature : Option Int
  top_p : Option Int
  tools : Option (List String)
deriving DecidableEq

/-- The per-message step of the loop in `convertToAnthropicFormat` lines
275-284: a `system` message overwrites the `system` accumulator, every other
message is appended with its role coerced to `assistant`/`user`. -/
def convertStep (acc : Option String × List ChatMessage) (m : ChatMessage) :
    Option String × List ChatMessage :=
  if m.role == "system" then (some m.content, acc.2)
  else (acc.1, acc.2 ++ [⟨if m.role == "assistant" then "assistant" else "user", m.content⟩])

/-- Embedding of `convertToAnthropicFormat` (`proxy.ts` lines 268-299).  `max_tokens` is
`(parsed.max_tokens as number) || 4096` — JS `||`, so `0` also defaults;
`system` is included only when truthy (non-empty). -/
def convertToAnthropicFormat (b : ChatBody) : AnthropicBody :=
  let p := b.messages.foldl convertStep (none, [])
  { model := b.model
    messages := p.2
    max_tokens :=
      match b.max_tokens with
      | some n => if n == 0 then 4096 else n
      | none => 4096
    system :=
      match p.1 with
      | some s => if s == "" then none else some s
      | none => none
    stream := b.stream
    temperature := b.temperature
    top_p := b.top_p
    tools := b.tools }

/-- The content of the last `system`-role message anywhere in the list. -/
def lastSystemContent (messages : List ChatMessage) : Option String :=
  ((messages.filter (fun m => m.role == "system")).getLast?).map (·.content)

/-- The extraction the claim describes: the consecutive leading `system`-role
messages joined into a single top-level system string.  Written from the
claim's words, for comparison. -/
def claimConsecutiveSystem (messages : List ChatMessage) : Option String :=
  match messages.takeWhile (fun m => m.role == "system") with
  | [] => none
  | l => some (String.join (l.map (·.content)))

theorem convertStep_foldl (messages : List ChatMessage) (sys0 : Option String)
    (acc0 : List ChatMessage) :
    messages.foldl convertStep (sys0, acc0) =
      ((match (messages.filter (fun m => m.role == "system")).getLast? with
        | some m => some m.content
        | none => sys0),
       acc0 ++ (messages.filter (fun m => !(m.role == "system"))).map
         (fun m => ⟨if m.role == "assistant" then "assistant" else "user", m.content⟩)) := by
  induction messages generalizing sys0 acc0 with
  | nil => simp
  | cons m rest ih =>
    by_cases hm : (m.role == "system") = true
    · rw [List.foldl_cons]
      rw [show convertStep (sys0, acc0) m = (some m.content, acc0) by
        unfold convertStep; rw [if_pos hm]]
      rw [ih]
      cases hL : (rest.filter (fun m => m.role == "system")) with
      | nil => simp [hm, hL]
      | cons y ys =>
        have hg : ∃ z, (y :: ys).getLast? = some z := by
          cases h : (y :: ys).getLast? with
          | none =>
            rw [List.getLast?_eq_none_iff] at h
            exact absurd h (by simp)
          | some z => exact ⟨z, rfl⟩
        obtain ⟨z, hz⟩ := hg
        simp [hm, hL, List.getLast?_cons_cons, hz]
    · have hm' := Bool.eq_false_iff.mpr hm
      rw [List.foldl_cons]
      rw [show convertStep (sys0, acc0) m =
          (sys0, acc0 ++ [⟨if m.role == "assistant" then "assistant" else "user",
            m.content⟩]) by
        unfold convertStep; rw [if_neg (by simp [hm'])]]
      rw [ih]
      simp [hm']

end ClawRouter

namespace ClawRouter

/-- C6 amended: the A → B translation sets `system` to the content of the
*last* `system`-role message anywhere in the list (earlier system messages
are dropped; an empty last system content omits the field), coerces every
remaining message to `assistant` or `user`, and sets `max_tokens` to 4096
when the field is absent *or zero* (JS `||`). -/
theorem convertToAnthropicFormat_spec (b : ChatBody) :
    (convertToAnthropicFormat b).system =
      (match lastSystemContent b.messages with
       | some s => if s == "" then none else some s
       | none => none) ∧
    (convertToAnthropicFormat b).messages =
      (b.messages.filter (fun m => !(m.role == "system"))).map
        (fun m => ⟨if m.role == "assistant" then "assistant" else "user", m.content⟩) ∧
    (convertToAnthropicFormat b).max_tokens =
      (match b.max_tokens with
       | some n => if n == 0 then 4096 else n
       | none => 4096) := by
  unfold convertToAnthropicFormat lastSystemContent
  rw [convertStep_foldl]
  refine ⟨?_, rfl, rfl⟩
  cases (b.messages.filter (fun m => m.role == "system")).getLast? <;> rfl

/-- The concrete body for the C6 counterexample: two system messages, the
second after a user turn, and an explicit `max_tokens` of `0`. -/
def c6Body : ChatBody :=
  { model := "anthropic/claude-sonnet-4"
    messages := [⟨"system", "A"⟩, ⟨"user", "u"⟩, ⟨"system", "B"⟩]
    max_tokens := some 0
    stream := false
    temperature := none
    top_p := none
    tools := none }

/-- C6 counterexample: the translated `system` is the *last* system message's
content `"B"`, not the single string `"A"` built from the consecutive leading
system run, and the present `max_tokens := 0` is still replaced by the 4096
default. -/
theorem convertToAnthropicFormat_counterexample :
    (convertToAnthropicFormat c6Body).system = some "B" ∧
    claimConsecutiveSystem c6Body.messages = some "A" ∧
    some "B" ≠ some "A" ∧
    c6Body.max_tokens = some 0 ∧
    (convertToAnthropicFormat c6Body).max_tokens = 4096 := by
  refine ⟨rfl, ?_, by decide, rfl, rfl⟩
  rfl

end ClawRouter

namespace ClawRouter

/-! ## Dedup-store call discipline in `proxyRequest` (`proxy.ts` lines 831-1080)

After the cache and inflight checks, `proxyRequest` calls
`deduplicator.markInflight(dedupKey)` (line 837) and then runs to one of
three terminal shapes:

* success (streaming line 1034 or non-streaming line 1070): `complete` is
  called and only then `completed = true` (line 1073) is reached;
* all models failed (lines 916-931): `complete` is called (line 924 or 928)
  and the function `return`s *before* line 1073, leaving `completed = false`;
* an exception in the try block (lines 1074-1080): `removeInflight`
  (line 1077) and rethrow, never reaching line 1073.

Once the response stream closes — which happens after `res.end()` on every
path, and earlier on client disconnect — the `close` handler (lines 854-857)
calls `removeInflight` iff `completed` is still `false`.  `proxyDedupOps`
lists the dedup-store calls made for the request's key, in order, for a run
without a mid-request client disconnect (a disconnect fires the close
handler early, adding a `removeInflight` before the body finishes). -/

inductive DedupOp
  | markInflight
  | complete
  | removeInflight
deriving DecidableEq

inductive ProxyOutcome
  | streamSuccess
  | nonStreamSuccess
  | allModelsFailed
  | exceptionThrown
deriving DecidableEq

/-- The dedup calls issued by the body of `proxyRequest` up to the point the
response ends, together with the final value of the `completed` flag. -/
def proxyBodyOps : ProxyOutcome → List DedupOp × Bool
  | .streamSuccess => ([.markInflight, .complete], true)
  | .nonStreamSuccess => ([.markInflight, .complete], true)
  | .allModelsFailed => ([.markInflight, .complete], false)
  | .exceptionThrown => ([.markInflight, .removeInflight], false)

/-- The full per-key call sequence: the body's calls followed by the `close`
handler's conditional `removeInflight` (lines 854-857). -/
def proxyDedupOps (o : ProxyOutcome) : List DedupOp :=
  (proxyBodyOps o).1 ++ (if (proxyBodyOps o).2 then [] else [DedupOp.removeInflight])

/-- C4 counterexample: on the all-models-failed path `complete` is called
(line 924/928) but the early `return` skips `completed = true` (line 1073),
so the close handler calls `removeInflight` as well — the mark is followed by
*both* a `complete` and a `removeInflight`, not exactly one of them. -/
theorem dedup_ops_counterexample :
    proxyDedupOps ProxyOutcome.allModelsFailed =
      [DedupOp.markInflight, DedupOp.complete, DedupOp.removeInflight] ∧
    (proxyDedupOps ProxyOutcome.allModelsFailed).count DedupOp.complete = 1 ∧
    (proxyDedupOps ProxyOutcome.allModelsFailed).count DedupOp.removeInflight = 1 := by
  refine ⟨rfl, rfl, rfl⟩

/-- C4 amended: every `markInflight` is followed by at least one `complete`
or `removeInflight`; *exactly* one happens precisely on the two success
paths.  On the all-models-failed path the `complete` is followed by a
redundant `removeInflight` from the close handler (the `completed` flag is
only set on the success paths), and on the exception path `removeInflight`
runs both in the catch block and again from the close handler. -/
theorem dedup_ops_discipline (o : ProxyOutcome) :
    (proxyDedupOps o).count DedupOp.markInflight = 1 ∧
    1 ≤ (proxyDedupOps o).count DedupOp.complete
        + (proxyDedupOps o).count DedupOp.removeInflight ∧
    ((proxyDedupOps o).count DedupOp.complete
        + (proxyDedupOps o).count DedupOp.removeInflight = 1 ↔
      (o = ProxyOutcome.streamSuccess ∨ o = ProxyOutcome.nonStreamSuccess)) ∧
    (o = ProxyOutcome.allModelsFailed →
      (proxyDedupOps o).count DedupOp.complete = 1 ∧
      (proxyDedupOps o).count DedupOp.removeInflight = 1) ∧
    (o = ProxyOutcome.exceptionThrown →
      (proxyDedupOps o).count DedupOp.complete = 0 ∧
      (proxyDedupOps o).count DedupOp.removeInflight = 2) := by
  cases o <;> refine ⟨rfl, by decide, by decide, by decide, by decide⟩

end ClawRouter

namespace ClawRouter

/-- Witness for the amended C4 discipline at the all-models-failed outcome. -/
theorem dedup_ops_discipline_witness :
    (proxyDedupOps ProxyOutcome.allModelsFailed).count DedupOp.complete = 1 ∧
    (proxyDedupOps ProxyOutcome.allModelsFailed).count DedupOp.removeInflight = 1 :=
  (dedup_ops_discipline ProxyOutcome.allModelsFailed).2.2.2.1 rfl

end ClawRouter

namespace ClawRouter

/-! ## Thinking-token stripping (`proxy.ts` lines 251-263)

`stripThinkingTokens` applies four global `String.replace` passes with the
empty replacement, in source order:

* `KIMI_BLOCK_RE  = /<[｜|][^<>]*begin[^<>]*[｜|]>[\s\S]*?<[｜|][^<>]*end[^<>]*[｜|]>/gi`
* `KIMI_TOKEN_RE  = /<[｜|][^<>]*[｜|]>/g`
* `THINKING_BLOCK_RE = /<\s*(?:think(?:ing)?|thought|antthinking)\b[^>]*>[\s\S]*?<\s*\/\s*(?:think(?:ing)?|thought|antthinking)\s*>/gi`
* `THINKING_TAG_RE = /<\s*\/?\s*(?:think(?:ing)?|thought|antthinking)\b[^>]*>/gi`

Each pattern is embedded as a matcher `List Char → Option (List Char)` that
matches the regex at the head of the list and returns the remainder after the
match.  Because `[^<>]*` and `[^>]*` exclude their closing delimiters and the
tag-name alternation backtracks in source order with a trailing `\b` (or
`\s*>`), each matcher is deterministic; the lazy `[\s\S]*?` takes the
earliest closing match.  A global pass (`genReplace`) then scans left to
right, skipping past each match without rescanning emitted text — exactly
`String.prototype.replace` with a `g` flag and an empty replacement. -/

/-- Substring containment on character lists (for the `[^<>]*word[^<>]*`
part of `KIMI_BLOCK_RE`). -/
def listContains (pat : List Char) : List Char → Bool
  | [] => pat.isEmpty
  | c :: r => pat.isPrefixOf (c :: r) || listContains pat r

/-- The character class `[｜|]` (full-width or ASCII vertical bar). -/
def isBarC (c : Char) : Bool := c == '｜' || c == '|'

/-- ECMAScript `\s` (WhiteSpace ∪ LineTerminator). -/
def isJsWs (c : Char) : Bool :=
  c == ' ' || c == '\t' || c == '\n' || c == '\r' ||
  c.toNat == 0x0b || c.toNat == 0x0c || c.toNat == 0xa0 || c.toNat == 0x1680 ||
  (0x2000 ≤ c.toNat && c.toNat ≤ 0x200a) ||
  c.toNat == 0x2028 || c.toNat == 0x2029 || c.toNat == 0x202f ||
  c.toNat == 0x205f || c.toNat == 0x3000 || c.toNat == 0xfeff

/-- Skip a `\s*`. -/
def skipWs : List Char → List Char
  | [] => []
  | c :: r => if isJsWs c then skipWs r else c :: r

/-- ECMAScript `\w`, for `\b` boundaries. -/
def isWordChar (c : Char) : Bool :=
  ('a' ≤ c && c ≤ 'z') || ('A' ≤ c && c ≤ 'Z') || ('0' ≤ c && c ≤ '9') || c == '_'

/-- Case-insensitive literal prefix (`pat` given lowercase, per the `i`
flag); returns the remainder after the literal. -/
def stripPrefixCI (pat : List Char) (l : List Char) : Option (List Char) :=
  match pat, l with
  | [], rest => some rest
  | _ :: _, [] => none
  | a :: p, c :: r => if a == c.toLower then stripPrefixCI p r else none

/-- Checks `\b` between the tag name and what follows. -/
def wordBoundaryOk : List Char → Bool
  | [] => true
  | c :: _ => !isWordChar c

/-- One alternative of `(?:think(?:ing)?|thought|antthinking)\b`. -/
def tryNameWB (nm : String) (l : List Char) : Option (List Char) :=
  match stripPrefixCI nm.data l with
  | some r => if wordBoundaryOk r then some r else none
  | none => none

/-- The full name alternation followed by `\b`, in JS backtracking order
(`thinking` before `think` realizes the greedy `(?:ing)?`). -/
def matchNameWB (l : List Char) : Option (List Char) :=
  (tryNameWB "thinking" l).orElse (fun _ =>
    (tryNameWB "think" l).orElse (fun _ =>
      (tryNameWB "thought" l).orElse (fun _ => tryNameWB "antthinking" l)))

/-- Matcher for `THINKING_TAG_RE` at the head: `<`, `\s*`, optional `/`, `\s*`,
name with `\b`, then `[^>]*` and the closing `>`. -/
def thinkTagM (l : List Char) : Option (List Char) :=
  match l with
  | [] => none
  | c :: r =>
    if c == '<' then
      let r1 := skipWs r
      let r2 := match r1 with
        | c1 :: t => if c1 == '/' then skipWs t else r1
        | [] => r1
      match matchNameWB r2 with
      | some r3 =>
        match r3.dropWhile (fun d => !(d == '>')) with
        | g :: r5 => if g == '>' then some r5 else none
        | [] => none
      | none => none
    else none

/-- The opening tag of `THINKING_BLOCK_RE` (no optional `/`). -/
def thinkOpenM (l : List Char) : Option (List Char) :=
  match l with
  | [] => none
  | c :: r =>
    if c == '<' then
      match matchNameWB (skipWs r) with
      | some r3 =>
        match r3.dropWhile (fun d => !(d == '>')) with
        | g :: r5 => if g == '>' then some r5 else none
        | [] => none
      | none => none
    else none

/-- One alternative of the closing-tag name followed by `\s*>`. -/
def tryNameWsGt (nm : String) (l : List Char) : Option (List Char) :=
  match stripPrefixCI nm.data l with
  | some r =>
    match skipWs r with
    | g :: r2 => if g == '>' then some r2 else none
    | [] => none
  | none => none

/-- The closing-tag name alternation of `THINKING_BLOCK_RE` with its `\s*>`
continuation, in JS backtracking order. -/
def matchNameWsGt (l : List Char) : Option (List Char) :=
  (tryNameWsGt "thinking" l).orElse (fun _ =>
    (tryNameWsGt "think" l).orElse (fun _ =>
      (tryNameWsGt "thought" l).orElse (fun _ => tryNameWsGt "antthinking" l)))

/-- The closing tag `<\s*\/\s*(name)\s*>` of `THINKING_BLOCK_RE`. -/
def thinkCloseM (l : List Char) : Option (List Char) :=
  match l with
  | [] => none
  | c :: r =>
    if c == '<' then
      match skipWs r with
      | c1 :: t => if c1 == '/' then matchNameWsGt (skipWs t) else none
      | [] => none
    else none

/-- The lazy `[\s\S]*?` before a closing pattern: the earliest position at
which `close` matches, returning the remainder after the close; `none` if it
never matches (the enclosing block match then fails). -/
def scanFor (close : List Char → Option (List Char)) : List Char → Option (List Char)
  | [] => none
  | c :: r =>
    match close (c :: r) with
    | some rest => some rest
    | none => scanFor close r

/-- Matcher for `THINKING_BLOCK_RE` at the head. -/
def thinkBlockM (l : List Char) : Option (List Char) :=
  match thinkOpenM l with
  | some r => scanFor thinkCloseM r
  | none => none

/-- Matcher for `KIMI_TOKEN_RE` at the head.  After `<` and the first bar, the
greedy `[^<>]*` and the backtracking for the final `[｜|]>` force: the
maximal run of non-`<>` characters must end in a bar and be followed
directly by `>`. -/
def kimiTokenM (l : List Char) : Option (List Char) :=
  match l with
  | c0 :: c1 :: r =>
    if c0 == '<' && isBarC c1 then
      let run := r.takeWhile (fun d => !(d == '<') && !(d == '>'))
      match run.getLast?, r.drop run.length with
      | some c2, g :: r2 =>
        if isBarC c2 && g == '>' then some r2 else none
      | _, _ => none
    else none
  | _ => none

/-- One delimiter `<[｜|][^<>]*word[^<>]*[｜|]>` of `KIMI_BLOCK_RE`: like
`kimiTokenM`, and the run minus its final bar must additionally contain
`word` (case-insensitively, `i` flag). -/
def kimiDelimM (word : String) (l : List Char) : Option (List Char) :=
  match l with
  | c0 :: c1 :: r =>
    if c0 == '<' && isBarC c1 then
      let run := r.takeWhile (fun d => !(d == '<') && !(d == '>'))
      match run.getLast?, r.drop run.length with
      | some c2, g :: r2 =>
        if isBarC c2 && g == '>'
            && listContains word.data (run.dropLast.map Char.toLower) then
          some r2
        else none
      | _, _ => none
    else none
  | _ => none

/-- Matcher for `KIMI_BLOCK_RE` at the head: a `begin` delimiter, the lazy gap,
then an `end` delimiter. -/
def kimiBlockM (l : List Char) : Option (List Char) :=
  match kimiDelimM "begin" l with
  | some r => scanFor (kimiDelimM "end") r
  | none => none

/-- One global `replace(re, "")` pass: at each position try the matcher; on a
match continue after it (already-emitted text is never rescanned), otherwise
emit the character and move one right.  Every matcher above consumes at
least the leading `<` on a match, so the length guard always holds; it is
needed only for the termination argument. -/
def genReplace (m : List Char → Option (List Char)) (l : List Char) : List Char :=
  match l with
  | [] => []
  | c :: r =>
    match m (c :: r) with
    | some rest =>
      if _h : rest.length ≤ r.length then genReplace m rest
      else c :: genReplace m r
    | none => c :: genReplace m r
termination_by l.length
decreasing_by
  · simp only [List.length_cons]; omega
  · simp

/-- Embedding of `stripThinkingTokens` (`proxy.ts` lines 256-263): the falsy-content early
return, then the four passes in source order. -/
def stripThinkingTokens (content : String) : String :=
  if content == "" then content
  else
    ⟨genReplace thinkTagM (genReplace thinkBlockM
      (genReplace kimiTokenM (genReplace kimiBlockM content.data)))⟩

end ClawRouter

namespace ClawRouter

/-! ### Lemmas about the replacement passes -/

/-- No `<` anywhere — no pattern of the family can start. -/
def ltFree (l : List Char) : Bool := l.all (fun c => !(c == '<'))

theorem genReplace_nil (m : List Char → Option (List Char)) :
    genReplace m [] = [] := by
  rw [genReplace]

theorem genReplace_cons_none (m : List Char → Option (List Char)) (c : Char)
    (r : List Char) (h : m (c :: r) = none) :
    genReplace m (c :: r) = c :: genReplace m r := by
  rw [genReplace, h]

theorem genReplace_cons_some (m : List Char → Option (List Char)) (c : Char)
    (r rest : List Char) (h : m (c :: r) = some rest)
    (hl : rest.length ≤ r.length) :
    genReplace m (c :: r) = genReplace m rest := by
  rw [genReplace, h]
  simp [hl]

theorem thinkTagM_none_not_lt (c : Char) (r : List Char) (h : (c == '<') = false) :
    thinkTagM (c :: r) = none := by
  simp [thinkTagM, h]

theorem thinkOpenM_none_not_lt (c : Char) (r : List Char) (h : (c == '<') = false) :
    thinkOpenM (c :: r) = none := by
  simp [thinkOpenM, h]

theorem thinkCloseM_none_not_lt (c : Char) (r : List Char) (h : (c == '<') = false) :
    thinkCloseM (c :: r) = none := by
  simp [thinkCloseM, h]

theorem thinkBlockM_none_not_lt (c : Char) (r : List Char) (h : (c == '<') = false) :
    thinkBlockM (c :: r) = none := by
  simp [thinkBlockM, thinkOpenM_none_not_lt c r h]

theorem kimiTokenM_none_not_lt (c : Char) (r : List Char) (h : (c == '<') = false) :
    kimiTokenM (c :: r) = none := by
  cases r with
  | nil => rfl
  | cons c1 r' => simp [kimiTokenM, h]

theorem kimiDelimM_none_not_lt (w : String) (c : Char) (r : List Char)
    (h : (c == '<') = false) : kimiDelimM w (c :: r) = none := by
  cases r with
  | nil => rfl
  | cons c1 r' => simp [kimiDelimM, h]

theorem kimiBlockM_none_not_lt (c : Char) (r : List Char) (h : (c == '<') = false) :
    kimiBlockM (c :: r) = none := by
  simp [kimiBlockM, kimiDelimM_none_not_lt "begin" c r h]

theorem kimiTokenM_none_not_bar (c1 : Char) (r : List Char) (h : isBarC c1 = false) :
    kimiTokenM ('<' :: c1 :: r) = none := by
  simp [kimiTokenM, h]

theorem kimiDelimM_none_not_bar (w : String) (c1 : Char) (r : List Char)
    (h : isBarC c1 = false) : kimiDelimM w ('<' :: c1 :: r) = none := by
  simp [kimiDelimM, h]

theorem kimiBlockM_none_not_bar (c1 : Char) (r : List Char) (h : isBarC c1 = false) :
    kimiBlockM ('<' :: c1 :: r) = none := by
  simp [kimiBlockM, kimiDelimM_none_not_bar "begin" c1 r h]

theorem ltFree_cons_iff (c : Char) (xs : List Char) :
    ltFree (c :: xs) = (!(c == '<') && ltFree xs) := by
  simp [ltFree]

theorem ltFree_append_iff (x y : List Char) :
    ltFree (x ++ y) = (ltFree x && ltFree y) := by
  simp [ltFree]

/-- A pass whose matcher only fires at a `<` copies `<`-free text verbatim. -/
theorem genReplace_ltFree_append (m : List Char → Option (List Char))
    (hm : ∀ c r, (c == '<') = false → m (c :: r) = none)
    (x : List Char) (hx : ltFree x = true) (s : List Char) :
    genReplace m (x ++ s) = x ++ genReplace m s := by
  induction x with
  | nil => simp
  | cons c xs ih =>
    rw [ltFree_cons_iff] at hx
    obtain ⟨hc, hxs⟩ := Bool.and_eq_true_iff.mp hx
    have hc' : (c == '<') = false := by
      cases hh : (c == '<') with
      | false => rfl
      | true => rw [hh] at hc; exact absurd hc (by decide)
    rw [List.cons_append, genReplace_cons_none m c (xs ++ s) (hm c _ hc'), ih hxs,
      List.cons_append]

theorem genReplace_ltFree (m : List Char → Option (List Char))
    (hm : ∀ c r, (c == '<') = false → m (c :: r) = none)
    (x : List Char) (hx : ltFree x = true) :
    genReplace m x = x := by
  have h := genReplace_ltFree_append m hm x hx []
  rw [List.append_nil] at h
  rw [h, genReplace_nil, List.append_nil]

end ClawRouter

namespace ClawRouter

def thinkOpenTag : List Char := ['<', 't', 'h', 'i', 'n', 'k', '>']
def thinkCloseTag : List Char := ['<', '/', 't', 'h', 'i', 'n', 'k', '>']

theorem thinkOpenM_at_tag (s : List Char) : thinkOpenM (thinkOpenTag ++ s) = some s := rfl

theorem thinkCloseM_at_tag (s : List Char) : thinkCloseM (thinkCloseTag ++ s) = some s := rfl

theorem scanFor_cons_some (close : List Char → Option (List Char)) (c : Char)
    (r rest : List Char) (h : close (c :: r) = some rest) :
    scanFor close (c :: r) = some rest := by
  simp [scanFor, h]

theorem scanFor_ltFree_append (close : List Char → Option (List Char))
    (hclose : ∀ c r, (c == '<') = false → close (c :: r) = none)
    (B : List Char) (hB : ltFree B = true) (s : List Char) :
    scanFor close (B ++ s) = scanFor close s := by
  induction B with
  | nil => rfl
  | cons c xs ih =>
    rw [ltFree_cons_iff] at hB
    obtain ⟨hc, hxs⟩ := Bool.and_eq_true_iff.mp hB
    have hc' : (c == '<') = false := by
      cases hh : (c == '<') with
      | false => rfl
      | true => rw [hh] at hc; exact absurd hc (by decide)
    rw [List.cons_append]
    simp only [scanFor, hclose c _ hc']
    exact ih hxs

theorem thinkBlockM_at_shape (B C : List Char) (hB : ltFree B = true) :
    thinkBlockM (thinkOpenTag ++ (B ++ (thinkCloseTag ++ C))) = some C := by
  unfold thinkBlockM
  rw [thinkOpenM_at_tag]
  show scanFor thinkCloseM (B ++ (thinkCloseTag ++ C)) = some C
  rw [scanFor_ltFree_append thinkCloseM thinkCloseM_none_not_lt B hB]
  have h1 : thinkCloseTag ++ C = '<' :: ('/' :: 't' :: 'h' :: 'i' :: 'n' :: 'k' :: '>' :: C) := rfl
  rw [h1]
  exact scanFor_cons_some thinkCloseM '<' _ C (thinkCloseM_at_tag C)

end ClawRouter

namespace ClawRouter

/-- A pass whose matcher fires only at `<` followed by a bar leaves the
well-formed `<think>…</think>` shape untouched (neither tag starts with a
bar). -/
theorem genReplace_skips_shape (m : List Char → Option (List Char))
    (hm : ∀ c r, (c == '<') = false → m (c :: r) = none)
    (hmb : ∀ c1 r, isBarC c1 = false → m ('<' :: c1 :: r) = none)
    (A B C : List Char) (hA : ltFree A = true) (hB : ltFree B = true)
    (hC : ltFree C = true) :
    genReplace m (A ++ (thinkOpenTag ++ (B ++ (thinkCloseTag ++ C))))
      = A ++ (thinkOpenTag ++ (B ++ (thinkCloseTag ++ C))) := by
  have hltB : ltFree (['t', 'h', 'i', 'n', 'k', '>'] ++ B) = true := by
    rw [ltFree_append_iff, hB]
    decide
  have hltC : ltFree (['/', 't', 'h', 'i', 'n', 'k', '>'] ++ C) = true := by
    rw [ltFree_append_iff, hC]
    decide
  rw [genReplace_ltFree_append m hm A hA]
  congr 1
  show genReplace m
      ('<' :: 't' :: 'h' :: 'i' :: 'n' :: 'k' :: '>' :: (B ++ (thinkCloseTag ++ C)))
    = thinkOpenTag ++ (B ++ (thinkCloseTag ++ C))
  rw [genReplace_cons_none m '<' _ (hmb 't' _ (by decide))]
  show '<' :: genReplace m
      ((['t', 'h', 'i', 'n', 'k', '>'] ++ B) ++ (thinkCloseTag ++ C))
    = thinkOpenTag ++ (B ++ (thinkCloseTag ++ C))
  rw [genReplace_ltFree_append m hm _ hltB]
  show '<' :: ((['t', 'h', 'i', 'n', 'k', '>'] ++ B)
      ++ genReplace m ('<' :: '/' :: 't' :: 'h' :: 'i' :: 'n' :: 'k' :: '>' :: C))
    = thinkOpenTag ++ (B ++ (thinkCloseTag ++ C))
  rw [genReplace_cons_none m '<' _ (hmb '/' _ (by decide))]
  show '<' :: ((['t', 'h', 'i', 'n', 'k', '>'] ++ B)
      ++ '<' :: genReplace m (['/', 't', 'h', 'i', 'n', 'k', '>'] ++ C))
    = thinkOpenTag ++ (B ++ (thinkCloseTag ++ C))
  rw [genReplace_ltFree m hm _ hltC]
  simp [thinkOpenTag, thinkCloseTag]

end ClawRouter

namespace ClawRouter

/-- All four replacement passes on a well-formed `<think>` block with
`<`-free surroundings: the two KIMI passes skip it (no bars), the block pass
removes exactly the tagged block, and the tag pass is left with `<`-free
text. -/
theorem stripPasses_wellFormed (A B C : List Char)
    (hA : ltFree A = true) (hB : ltFree B = true) (hC : ltFree C = true) :
    genReplace thinkTagM (genReplace thinkBlockM (genReplace kimiTokenM
      (genReplace kimiBlockM (A ++ (thinkOpenTag ++ (B ++ (thinkCloseTag ++ C)))))))
      = A ++ C := by
  rw [genReplace_skips_shape kimiBlockM kimiBlockM_none_not_lt kimiBlockM_none_not_bar
    A B C hA hB hC]
  rw [genReplace_skips_shape kimiTokenM kimiTokenM_none_not_lt kimiTokenM_none_not_bar
    A B C hA hB hC]
  rw [genReplace_ltFree_append thinkBlockM thinkBlockM_none_not_lt A hA]
  have hstep : genReplace thinkBlockM (thinkOpenTag ++ (B ++ (thinkCloseTag ++ C)))
      = genReplace thinkBlockM C := by
    have hl : C.length
        ≤ (['t', 'h', 'i', 'n', 'k', '>'] ++ (B ++ (thinkCloseTag ++ C))).length := by
      simp [List.length_append, thinkCloseTag]
      omega
    exact genReplace_cons_some thinkBlockM '<' _ C (thinkBlockM_at_shape B C hB) hl
  rw [hstep, genReplace_ltFree thinkBlockM thinkBlockM_none_not_lt C hC]
  apply genReplace_ltFree thinkTagM thinkTagM_none_not_lt
  rw [ltFree_append_iff, hA, hC]
  rfl

end ClawRouter

namespace ClawRouter

theorem not_infix_of_ltFree (l : List Char) (hl : ltFree l = true) (tok : List Char)
    (htok : '<' ∈ tok) : ¬ tok <:+: l := by
  intro hinf
  have hmem : '<' ∈ l := hinf.subset htok
  have := List.all_eq_true.mp hl '<' hmem
  exact absurd this (by decide)

/-! ## The JSON→SSE conversion's per-choice content (`proxy.ts` lines 994-1021) -/

structure ChoicePart where
  role : Option String
  content : Option String

structure Choice where
  index : Option Nat
  message : Option ChoicePart
  delta : Option ChoicePart
  finish_reason : Option String

/-- Computes `choice.message?.content ?? choice.delta?.content ?? ""` (line 996). -/
def choiceRawContent (ch : Choice) : String :=
  ((ch.message.bind (·.content)).orElse (fun _ => ch.delta.bind (·.content))).getD ""

/-- The content the conversion writes for a choice (line 997, carried by the
content frame of lines 1005-1009): `stripThinkingTokens` of the raw
content. -/
def choiceContentDelta (ch : Choice) : String :=
  stripThinkingTokens (choiceRawContent ch)

/-- C1 amended, streaming side: when the streaming path converts an upstream
JSON completion to SSE frames, the content delta is `stripThinkingTokens` of
the upstream content; for a well-formed `<think>`…`</think>` block (its
surroundings and interior free of further `<`), the block is removed whole
and the delivered content contains none of the four token sequences. -/
theorem strip_wellFormed_no_thinking_tokens (a b c : String)
    (ha : ltFree a.data = true) (hb : ltFree b.data = true)
    (hc : ltFree c.data = true) :
    choiceContentDelta
        { index := some 0
          message := some { role := some "assistant"
                            content := some (a ++ "<think>" ++ b ++ "</think>" ++ c) }
          delta := none
          finish_reason := some "stop" } = a ++ c ∧
    ¬ "<think>".data <:+: (a ++ c).data ∧
    ¬ "<thinking>".data <:+: (a ++ c).data ∧
    ¬ "<｜begin".data <:+: (a ++ c).data ∧
    ¬ "<｜end".data <:+: (a ++ c).data := by
  have hdata : (a ++ "<think>" ++ b ++ "</think>" ++ c).data
      = a.data ++ (thinkOpenTag ++ (b.data ++ (thinkCloseTag ++ c.data))) := by
    show (((a.data ++ "<think>".data) ++ b.data) ++ "</think>".data) ++ c.data
        = a.data ++ (thinkOpenTag ++ (b.data ++ (thinkCloseTag ++ c.data)))
    rw [show "<think>".data = thinkOpenTag from rfl,
      show "</think>".data = thinkCloseTag from rfl]
    simp [List.append_assoc]
  have hac : ltFree (a ++ c).data = true := by
    show ltFree (a.data ++ c.data) = true
    rw [ltFree_append_iff, ha, hc]
    rfl
  refine ⟨?_, ?_, ?_, ?_, ?_⟩
  · show stripThinkingTokens (a ++ "<think>" ++ b ++ "</think>" ++ c) = a ++ c
    have hsd : (a ++ "<think>" ++ b ++ "</think>" ++ c).data ≠ [] := by
      rw [hdata]
      simp [thinkOpenTag]
    have hne' : (a ++ "<think>" ++ b ++ "</think>" ++ c) ≠ "" := by
      intro h
      apply hsd
      rw [h]
    have hne : ((a ++ "<think>" ++ b ++ "</think>" ++ c) == "") = false :=
      beq_eq_false_iff_ne.mpr hne'
    unfold stripThinkingTokens
    simp only [hne, Bool.false_eq_true, if_false]
    rw [hdata, stripPasses_wellFormed a.data b.data c.data ha hb hc]
    rfl
  · exact not_infix_of_ltFree _ hac _ (by decide)
  · exact not_infix_of_ltFree _ hac _ (by decide)
  · exact not_infix_of_ltFree _ hac _ (by decide)
  · exact not_infix_of_ltFree _ hac _ (by decide)

end ClawRouter

namespace ClawRouter

/-- Witness for the amended C1 at a concrete well-formed thinking block. -/
theorem strip_wellFormed_no_thinking_tokens_witness :
    choiceContentDelta
        { index := some 0
          message := some { role := some "assistant"
                            content := some ("Answer: " ++ "<think>" ++ "secret reasoning"
                              ++ "</think>" ++ "42.") }
          delta := none
          finish_reason := some "stop" } = "Answer: " ++ "42." :=
  (strip_wellFormed_no_thinking_tokens "Answer: " "secret reasoning" "42."
    (by decide) (by decide) (by decide)).1

/-! ## Non-streaming response forwarding (`proxy.ts` lines 1035-1071)

On the non-streaming path the accumulated upstream bytes are forwarded to
the client unchanged, except that a body parsing as an Anthropic message
(`type: "message"` with truthy `content`) is first converted by
`convertAnthropicResponseToOpenAI` (lines 304-327) — whose `content` is the
plain join of the text blocks.  Neither branch applies
`stripThinkingTokens`. -/

structure AnthBlock where
  type : String
  text : Option String
deriving DecidableEq

/-- The `content` string `convertAnthropicResponseToOpenAI` builds
(`proxy.ts` line 306): the `text` fields of the `"text"`-typed blocks joined
(a missing `text` joins as the empty string). -/
def anthropicTextContent (content : List AnthBlock) : String :=
  String.join ((content.filter (fun b => b.type == "text")).map (fun b => b.text.getD ""))

/-- The shape of a non-streaming upstream body as the branch at lines
1058-1065 distinguishes it. -/
inductive UpstreamNonStream
  | anthropicMessage (content : List AnthBlock)
  | passthrough (raw : String)

/-- The assistant content the client receives on the non-streaming path:
the converted text for an Anthropic message, the raw bytes otherwise. -/
def nonStreamingClientContent : UpstreamNonStream → String
  | .anthropicMessage content => anthropicTextContent content
  | .passthrough raw => raw

/-- C1 counterexample: a non-streaming Anthropic completion whose text block
carries a `<think>` section reaches the client verbatim — the non-streaming
path never calls `stripThinkingTokens`, so the delivered content contains
`<think>`, contradicting the claim for the non-streaming path. -/
theorem nonstreaming_thinking_tokens_leak :
    nonStreamingClientContent
        (UpstreamNonStream.anthropicMessage
          [⟨"text", some "<think>hidden rationale</think>the answer is 4"⟩])
      = "<think>hidden rationale</think>the answer is 4" ∧
    "<think>".data <:+: "<think>hidden rationale</think>the answer is 4".data := by
  refine ⟨rfl, ?_⟩
  exact ⟨[], "hidden rationale</think>the answer is 4".data, rfl⟩

end ClawRouter
